import Mathlib

/-!
Verification of the raw-memory backed dynamic array in `src/vector/00/vector.h`
(`RawMemory<T>` / `Vector<T>`).

The shallow embedding models the observable state of a `Vector<T>` as the list
of its live elements (slots `[0, size_)`) together with the capacity of its
`RawMemory` block.  `size_` is the length of the live list.  Element types are
modelled as plain values, matching the main instantiation of the template with
a nothrow-move-constructible type such as `int`: on that path every storage
transfer uses `std::uninitialized_move_n` / `std::move` / `std::move_backward`,
which for value semantics copies the value and leaves the moved-from slot
holding its old value.  Operations whose C++ source runs into undefined
behaviour (an invalid iterator range handed to a standard algorithm, an
out-of-contract position) return `none`.

A second model (`uninitCopy`, `pushBackGrowViaCopy`) instantiates the template
with a copy-constructible, not nothrow-move-constructible element type whose
copy constructor may throw, to examine the exception-safety paths, and a third
(`reserveE`, `pushBackE`, `emplaceGrowE`) makes the `RawMemory` allocation an
explicit fallible step to examine allocation-failure behaviour.
-/

namespace CppVector

/-- Observable state of a `Vector<T>`: the live elements `data_[0 .. size_)` and
the capacity of the owned `RawMemory<T>` block (`data_.Capacity()`). -/
structure Vec (α : Type) where
  elems : List α
  cap : ℕ
  deriving Repr, DecidableEq

/-- `Vector::Size()`: the number of live elements (`size_`). -/
def Vec.size (v : Vec α) : ℕ := v.elems.length

/-- The default-constructed `Vector()`: null buffer, capacity 0, size 0. -/
def Vec.empty : Vec α := ⟨[], 0⟩

/-- `Vector(size_t size)`: allocates `size` slots and value-constructs `size`
elements (`std::uninitialized_value_construct_n`). -/
def Vec.ofSize (α : Type) [Inhabited α] (n : ℕ) : Vec α :=
  ⟨List.replicate n default, n⟩

/-- `Vector::Swap`: `data_.Swap(other.data_); std::swap(size_, other.size_)` —
both instances exchange their whole observable state.  Returns
`(this after, other after)`. -/
def Vec.swapWith (self other : Vec α) : Vec α × Vec α := (other, self)

/-- Move construction `Vector(Vector&& other)`: the members start default
(null buffer, capacity 0, size 0) and are then swapped with `other`.
Returns `(the new vector, other after)`. -/
def Vec.moveCtor (other : Vec α) : Vec α × Vec α := Vec.swapWith Vec.empty other

/-- Move assignment `operator=(Vector&& other)`: `Swap(other)` — the target and
the source exchange states.  Returns `(this after, other after)`. -/
def Vec.moveAssign (self other : Vec α) : Vec α × Vec α := Vec.swapWith self other

/-- `Vector::Reserve(new_capacity)`: no-op when `new_capacity <= Capacity()`;
otherwise allocates a `RawMemory` of exactly `new_capacity`, transfers the
`size_` live elements (`std::uninitialized_move_n` on the value path, which
preserves the live values), destroys the old elements and swaps in the new
storage. -/
def Vec.reserve (v : Vec α) (k : ℕ) : Vec α :=
  if k ≤ v.cap then v else ⟨v.elems, k⟩

/-- `Vector::Resize(new_size)`: `Reserve(new_size)` when `new_size > Capacity()`;
then value-constructs the missing trailing elements or destroys the surplus
ones, and sets `size_ = new_size`. -/
def Vec.resize [Inhabited α] (v : Vec α) (n : ℕ) : Vec α :=
  let r := if v.cap < n then v.reserve n else v
  if r.size < n then ⟨r.elems ++ List.replicate (n - r.size) default, r.cap⟩
  else ⟨r.elems.take n, r.cap⟩

/-- `Vector::PushBack(value)`: with spare capacity, constructs the value at slot
`size_`; otherwise allocates `RawMemory` of `Capacity() == 0 ? 1 : Capacity()*2`,
constructs the value at slot `size_` of the new block, transfers the old
elements, destroys them and swaps.  Either way `++size_`. -/
def Vec.pushBack (v : Vec α) (x : α) : Vec α :=
  if v.size < v.cap then ⟨v.elems ++ [x], v.cap⟩
  else ⟨v.elems ++ [x], if v.cap = 0 then 1 else v.cap * 2⟩

/-- `Vector::EmplaceBack(args...)`: identical storage logic to `PushBack`, the
element being constructed from `args...`; returns `data_[size_ - 1]`
(modelled by the resulting state; the returned reference is its last element). -/
def Vec.emplaceBack (v : Vec α) (x : α) : Vec α :=
  if v.size < v.cap then ⟨v.elems ++ [x], v.cap⟩
  else ⟨v.elems ++ [x], if v.cap = 0 then 1 else v.cap * 2⟩

/-- `Vector::PopBack()`: when `size_ > 0`, destroys the element at slot
`size_ - 1` and decrements `size_`; otherwise does nothing. -/
def Vec.popBack (v : Vec α) : Vec α :=
  if 0 < v.size then ⟨v.elems.dropLast, v.cap⟩ else v

/-- `std::move_backward(first, lst, d_last)` / `std::copy_backward` acting on a
live list `l` of values, with positions as indices: the index range
`[first, lst)` is copied backwards so that it ends at index `dst`; slots before
the destination range and at or after `dst` keep their previous values, and on
the value path a moved-from slot also keeps its value.  This closed form is the
loop's effect for a valid range, i.e. `first ≤ lst ≤ dst ≤ l.length`. -/
def copyBackward (l : List α) (first lst dst : ℕ) : List α :=
  l.take (first + (dst - lst)) ++ (l.drop first).take (lst - first) ++ l.drop dst

/-- `Vector::Emplace(pos, args...)` with `pos_number = pos - begin()`.

With spare capacity and `size_ > 0` the code builds `T new_el(args...)`,
constructs `data_[size_ - 1]`'s value into slot `size_`
(live list becomes `elems ++ [elems[size_-1]]`), then calls
`std::move_backward(begin() + pos_number, end() - 1, end())` and finally
assigns `new_el` into slot `pos_number`.  That `move_backward` call requires
`begin() + pos_number ≤ end() - 1`, i.e. `pos_number + 1 ≤ size_`; for
`pos_number == size_` (inserting at `end()`) the first iterator is one past the
last — an invalid range, undefined behaviour — modelled as `none`.

With spare capacity and `size_ == 0` the code constructs directly at `end()`
(slot 0).

At full capacity it allocates `Capacity() ? Capacity()*2 : 1` slots, constructs
the new element at slot `pos_number` of the new block, transfers the old
elements `[0, pos_number)` and `[pos_number, size_)` around it, destroys the
old elements and swaps; `pos_number > size_` would make the transfers read
past the live range (undefined behaviour), modelled as `none`.

Returns the new state and the index of `&data_[pos_number]`. -/
def Vec.emplace (v : Vec α) (pos : ℕ) (x : α) : Option (Vec α × ℕ) :=
  if v.size < v.cap then
    if 0 < v.size then
      if pos + 1 ≤ v.size then
        let l1 := v.elems ++ v.elems.drop (v.size - 1)
        let l2 := copyBackward l1 pos (v.size - 1) v.size
        some (⟨l2.set pos x, v.cap⟩, pos)
      else none
    else some (⟨[x], v.cap⟩, pos)
  else
    if pos ≤ v.size then
      some (⟨v.elems.take pos ++ x :: v.elems.drop pos, if v.cap = 0 then 1 else v.cap * 2⟩, pos)
    else none

/-- `Vector::Insert(pos, value)` (both overloads): delegates to `Emplace`. -/
def Vec.insert (v : Vec α) (pos : ℕ) (x : α) : Option (Vec α × ℕ) :=
  Vec.emplace v pos x

/-- `Vector::Erase(pos)` with `pos_number = pos - begin()`: shifts the range
`(pos, end)` one slot left with `std::move(begin() + pos_number + 1, end(),
begin() + pos_number)` — on the value path slot `size_ - 1` keeps its
moved-from value, so the live list becomes
`take pos ++ drop (pos+1) ++ [elems[size_-1]]` — then `PopBack()` destroys the
vacated last slot.  The `std::move` range is valid only for
`pos_number + 1 ≤ size_`; otherwise (erasing at or past `end()`) it is
undefined behaviour, modelled as `none`.  Returns the new state and the index
of `&data_[pos_number]`. -/
def Vec.erase (v : Vec α) (pos : ℕ) : Option (Vec α × ℕ) :=
  if pos + 1 ≤ v.size then
    let shifted := v.elems.take pos ++ v.elems.drop (pos + 1) ++ v.elems.drop (v.size - 1)
    some (Vec.popBack ⟨shifted, v.cap⟩, pos)
  else none

/-- One public mutating operation of `Vector<T>`, as invoked by a caller. -/
inductive Op (α : Type) where
  | reserve (n : ℕ)
  | resize (n : ℕ)
  | pushBack (x : α)
  | emplaceBack (x : α)
  | popBack
  | emplace (pos : ℕ) (x : α)
  | insert (pos : ℕ) (x : α)
  | erase (pos : ℕ)
  deriving Repr, DecidableEq

/-- Applies one public operation to a vector state; `none` when the C++ source
of that operation runs into undefined behaviour on the given input. -/
def applyOp [Inhabited α] (v : Vec α) : Op α → Option (Vec α)
  | .reserve n => some (v.reserve n)
  | .resize n => some (v.resize n)
  | .pushBack x => some (v.pushBack x)
  | .emplaceBack x => some (v.emplaceBack x)
  | .popBack => some v.popBack
  | .emplace pos x => Option.map Prod.fst (v.emplace pos x)
  | .insert pos x => Option.map Prod.fst (v.insert pos x)
  | .erase pos => Option.map Prod.fst (v.erase pos)

/-- Runs a sequence of public operations from a starting state. -/
def runOps [Inhabited α] (v : Vec α) : List (Op α) → Option (Vec α)
  | [] => some v
  | op :: ops =>
      match applyOp v op with
      | none => none
      | some w => runOps w ops

/-- `std::uninitialized_copy_n` over the live elements, for an element type
whose copy constructor may fail (`copy e = none` models a throw): it copies
element by element, and on the first failure destroys the copies it has itself
constructed — a net effect of zero surviving constructions from this call —
before the exception propagates (`none`). -/
def uninitCopy (copy : α → Option α) : List α → Option (List α)
  | [] => some []
  | e :: es =>
      match copy e with
      | none => none
      | some y => Option.map (fun ys => y :: ys) (uninitCopy copy es)

/-- `Vector::PushBack` at full capacity (`size_ == Capacity()`), instantiated
with an element type that is copy-constructible and not
nothrow-move-constructible, so the transfer takes the
`std::uninitialized_copy_n` branch.  Mirrors the code step by step: allocate
`RawMemory new_data(Capacity() == 0 ? 1 : Capacity() * 2)`;
`new (new_data + size_) T(value)` — a copy of `value`;
`std::uninitialized_copy_n(data_.GetAddress(), size_, new_data.GetAddress())`;
`std::destroy_n` of the old elements; `data_.Swap(new_data)`.  When a copy
fails, the exception leaves `PushBack` with `data_` and `size_` untouched; the
`Except.error` payload records that observed container state together with the
number of elements that were constructed into `new_data` and never destroyed:
`uninitialized_copy_n` destroys its own partial copies, but nothing destroys
the element already constructed at `new_data + size_`. -/
def pushBackGrowViaCopy (copy : α → Option α) (v : Vec α) (x : α) :
    Except (Vec α × ℕ) (Vec α) :=
  match copy x with
  | none => .error (v, 0)
  | some y =>
      match uninitCopy copy v.elems with
      | none => .error (v, 1)
      | some ys => .ok ⟨ys ++ [y], if v.cap = 0 then 1 else v.cap * 2⟩

/-- A copy constructor for `ℕ` elements that throws when copying `7`. -/
def copyThrowsOn7 (a : ℕ) : Option ℕ := if a = 7 then none else some a

/-- `Vector::Reserve` with the `RawMemory` allocation made explicit:
`RawMemory<T> new_data(new_capacity)` calls `operator new` first, before any
member of the vector is touched; `alloc k = false` models that call throwing
`std::bad_alloc`.  On failure the exception propagates and the `Except.error`
payload is the container state the caller then observes. -/
def Vec.reserveE (alloc : ℕ → Bool) (v : Vec α) (k : ℕ) : Except (Vec α) (Vec α) :=
  if k ≤ v.cap then .ok v
  else if alloc k then .ok ⟨v.elems, k⟩ else .error v

/-- `Vector::PushBack` with the allocation of the growth path made explicit:
`RawMemory new_data(...)` runs before the element construction and transfer,
and before `data_` or `size_` is touched. -/
def Vec.pushBackE (alloc : ℕ → Bool) (v : Vec α) (x : α) : Except (Vec α) (Vec α) :=
  if v.size < v.cap then .ok ⟨v.elems ++ [x], v.cap⟩
  else if alloc (if v.cap = 0 then 1 else v.cap * 2) then
    .ok ⟨v.elems ++ [x], if v.cap = 0 then 1 else v.cap * 2⟩
  else .error v

/-- The growth path of `Emplace`/`Insert` (`size_ == Capacity()`), entered with
a contract-valid position `pos ≤ size_`, with the allocation made explicit:
`RawMemory<T> new_data(data_.Capacity() ? data_.Capacity() * 2 : 1)` is the
first statement of the branch, before any element is constructed, transferred
or destroyed. -/
def Vec.emplaceGrowE (alloc : ℕ → Bool) (v : Vec α) (pos : ℕ) (x : α) :
    Except (Vec α) (Vec α × ℕ) :=
  if alloc (if v.cap = 0 then 1 else v.cap * 2) then
    .ok (⟨v.elems.take pos ++ x :: v.elems.drop pos,
      if v.cap = 0 then 1 else v.cap * 2⟩, pos)
  else .error v

/-! ### Basic lemmas about the operations -/

theorem Vec.pushBack_elems (v : Vec α) (x : α) :
    (v.pushBack x).elems = v.elems ++ [x] := by
  unfold Vec.pushBack; split <;> rfl

theorem Vec.pushBack_size (v : Vec α) (x : α) :
    (v.pushBack x).size = v.size + 1 := by
  simp [Vec.size, Vec.pushBack_elems]

theorem Vec.foldl_pushBack_elems (es : List α) (v : Vec α) :
    (es.foldl Vec.pushBack v).elems = v.elems ++ es := by
  induction es generalizing v with
  | nil => simp
  | cons e es ih =>
      simp only [List.foldl_cons, ih, Vec.pushBack_elems, List.append_assoc,
        List.singleton_append]

theorem Vec.popBack_concat (l : List α) (a : α) (c : ℕ) :
    Vec.popBack ⟨l ++ [a], c⟩ = ⟨l, c⟩ := by
  unfold Vec.popBack
  rw [if_pos]
  · simp
  · simp [Vec.size]

/-! ### C1: move semantics -/

/-- C1, as stated, is false: move assignment `operator=(Vector&&)` is
implemented as `Swap(other)`, so moving `A = {[5], cap 1}` into the non-empty
`B = {[2, 3], cap 2}` leaves the source `A` with `B`'s previous state
(size 2, capacity 2), not with `Size() == 0` and `Capacity() == 0`. -/
theorem C1_counterexample :
    ¬ (((Vec.moveAssign (⟨[2, 3], 2⟩ : Vec ℕ) ⟨[5], 1⟩).2).size = 0 ∧
       ((Vec.moveAssign (⟨[2, 3], 2⟩ : Vec ℕ) ⟨[5], 1⟩).2).cap = 0) := by
  decide

/-- C1 (amended): moving `A` into `B` — by construction or assignment — always
gives `B` exactly `A`'s original size, capacity and contents.  Move
construction leaves `A` empty (`Size() == 0`, `Capacity() == 0`); move
assignment swaps the two states, so `A` is left holding `B`'s previous size,
capacity and contents (empty only when `B` was empty). -/
theorem C1_move_transfer (a b : Vec α) :
    (Vec.moveCtor a).1 = a ∧
    (Vec.moveCtor a).2.size = 0 ∧ (Vec.moveCtor a).2.cap = 0 ∧
    (Vec.moveAssign b a).1 = a ∧ (Vec.moveAssign b a).2 = b :=
  ⟨rfl, rfl, rfl, rfl, rfl⟩

/-- Instantiation of `C1_move_transfer` at a concrete pair of vectors. -/
theorem C1_move_transfer_witness :
    (Vec.moveCtor (⟨[7], 2⟩ : Vec ℕ)).2.cap = 0 ∧
    (Vec.moveAssign (⟨[2, 3], 2⟩ : Vec ℕ) ⟨[7], 2⟩).1 = ⟨[7], 2⟩ :=
  ⟨(C1_move_transfer (⟨[7], 2⟩ : Vec ℕ) ⟨[2, 3], 2⟩).2.2.1,
   (C1_move_transfer (⟨[7], 2⟩ : Vec ℕ) ⟨[2, 3], 2⟩).2.2.2.1⟩

/-! ### C2: Insert / Emplace at `end()` with spare capacity -/

/-- C2 fails on the code: for the vector `{1}` with capacity 2 (spare capacity,
`Size() == 1 > 0`), `Emplace(end(), 2)` — position index 1 — reaches
`std::move_backward(begin() + 1, end() - 1, end())`, whose first iterator is
one past its last (`begin() + 1` vs `begin() + 0`): an invalid range and
undefined behaviour, modelled as `none`, instead of the claimed successful
insertion at `end()`. -/
theorem C2_emplace_at_end_spare_capacity :
    Vec.emplace (⟨[1], 2⟩ : Vec ℕ) 1 2 = none := by
  decide

/-! ### C4: PushBack round trip and the concrete growth scenario -/

/-- C4: pushing `e1 .. en` into an initially empty vector yields size `n` and
contents `e1 .. en` in order; and concretely `PushBack(1); PushBack(2);
PushBack(3)` from empty gives size 3, contents `{1, 2, 3}` and the capacity
progression `0 → 1 → 2 → 4`. -/
theorem C4_pushBack_round_trip (es : List ℕ) :
    ((es.foldl Vec.pushBack (Vec.empty : Vec ℕ)).size = es.length ∧
      (es.foldl Vec.pushBack (Vec.empty : Vec ℕ)).elems = es) ∧
    ((Vec.empty : Vec ℕ).cap = 0 ∧
      (Vec.pushBack Vec.empty (1 : ℕ)).cap = 1 ∧
      ((Vec.pushBack Vec.empty (1 : ℕ)).pushBack 2).cap = 2 ∧
      (((Vec.pushBack Vec.empty (1 : ℕ)).pushBack 2).pushBack 3).cap = 4 ∧
      (((Vec.pushBack Vec.empty (1 : ℕ)).pushBack 2).pushBack 3).size = 3 ∧
      (((Vec.pushBack Vec.empty (1 : ℕ)).pushBack 2).pushBack 3).elems = [1, 2, 3]) := by
  constructor
  · rw [Vec.size, Vec.foldl_pushBack_elems]
    exact ⟨by simp [Vec.empty], by simp [Vec.empty]⟩
  · decide

/-- Instantiation of `C4_pushBack_round_trip` at the sequence `[5, 6]`. -/
theorem C4_pushBack_round_trip_witness :
    (([5, 6] : List ℕ).foldl Vec.pushBack Vec.empty).elems = [5, 6] :=
  (C4_pushBack_round_trip [5, 6]).1.2

/-! ### C6: Reserve -/

/-- C6: `Reserve(k)` is a no-op when `k ≤ Capacity()`; otherwise it makes the
capacity exactly `k` while preserving the size and all live elements; a second
`Reserve(k)` is then a no-op, and the capacity never shrinks. -/
theorem C6_reserve (v : Vec α) (k : ℕ) :
    (k ≤ v.cap → v.reserve k = v) ∧
    (v.cap < k → (v.reserve k).cap = k ∧ (v.reserve k).elems = v.elems ∧
      (v.reserve k).size = v.size) ∧
    (v.reserve k).reserve k = v.reserve k ∧
    v.cap ≤ (v.reserve k).cap := by
  refine ⟨fun h => by simp [Vec.reserve, h], fun h => ?_, ?_, ?_⟩
  · simp [Vec.reserve, Nat.not_le.mpr h, Vec.size]
  · by_cases h : k ≤ v.cap
    · simp [Vec.reserve, h]
    · simp [Vec.reserve, h]
  · by_cases h : k ≤ v.cap
    · simp [Vec.reserve, h]
    · simp [Vec.reserve, h]
      omega

/-- Instantiation of `C6_reserve`: growing `{[1], cap 1}` to capacity 3. -/
theorem C6_reserve_witness :
    (Vec.reserve (⟨[1], 1⟩ : Vec ℕ) 3).cap = 3 :=
  ((C6_reserve (⟨[1], 1⟩ : Vec ℕ) 3).2.1 (by decide)).1

/-! ### C7: PopBack -/

/-- C7: `PopBack()` on an empty vector is a no-op, and on a non-empty vector
removes exactly the last live element — the size drops by one, the elements at
indices `0 .. Size() - 2` are unchanged, and the capacity is untouched. -/
theorem C7_popBack (v : Vec α) :
    (v.size = 0 → v.popBack = v) ∧
    (0 < v.size → v.popBack.size = v.size - 1 ∧
      v.popBack.elems = v.elems.take (v.size - 1) ∧ v.popBack.cap = v.cap) := by
  constructor
  · intro h
    simp [Vec.popBack, h]
  · intro h
    rw [Vec.popBack, if_pos h]
    exact ⟨by simp [Vec.size], by simp [Vec.size, List.dropLast_eq_take], rfl⟩

/-- Instantiation of `C7_popBack` on the vector `{[1, 2], cap 2}`. -/
theorem C7_popBack_witness :
    (Vec.popBack (⟨[1, 2], 2⟩ : Vec ℕ)).elems = [1] := by
  have h := (C7_popBack (⟨[1, 2], 2⟩ : Vec ℕ)).2 (by decide)
  exact h.2.1

/-! ### C5: growth factor -/

/-- C5: at full capacity (`Size() == Capacity()`), `PushBack`, `EmplaceBack`
and `Insert`/`Emplace` all allocate a new storage of capacity exactly
`max(1, 2 × oldCapacity)`: `Capacity() == 0 ? 1 : Capacity() * 2`. -/
theorem C5_growth_capacity (v : Vec α) (x : α) (pos : ℕ)
    (h : v.size = v.cap) (hp : pos ≤ v.size) :
    (v.pushBack x).cap = max 1 (2 * v.cap) ∧
    (v.emplaceBack x).cap = max 1 (2 * v.cap) ∧
    v.emplace pos x =
      some (⟨v.elems.take pos ++ x :: v.elems.drop pos, max 1 (2 * v.cap)⟩, pos) := by
  have hlt : ¬ v.size < v.cap := by omega
  have hcap : (if v.cap = 0 then 1 else v.cap * 2) = max 1 (2 * v.cap) := by
    rcases Nat.eq_zero_or_pos v.cap with h0 | h0
    · simp [h0]
    · rw [if_neg (by omega)]
      omega
  refine ⟨?_, ?_, ?_⟩
  · unfold Vec.pushBack
    rw [if_neg hlt]
    exact hcap
  · unfold Vec.emplaceBack
    rw [if_neg hlt]
    exact hcap
  · unfold Vec.emplace
    rw [if_neg hlt, if_pos hp, hcap]

/-- Instantiation of `C5_growth_capacity` on the full vector `{[5], cap 1}`. -/
theorem C5_growth_capacity_witness :
    (Vec.pushBack (⟨[5], 1⟩ : Vec ℕ) 7).cap = 2 ∧
    Vec.emplace (⟨[5], 1⟩ : Vec ℕ) 1 7 = some (⟨[5, 7], 2⟩, 1) := by
  have h := C5_growth_capacity (⟨[5], 1⟩ : Vec ℕ) 7 1 (by decide) (by decide)
  exact ⟨h.1.trans (by decide), h.2.2.trans (by decide)⟩

/-! ### C8: Erase -/

/-- C8: for a valid position `pos ∈ [begin, end)`, `Erase(pos)` removes exactly
the element at `pos`: the size drops by one, the elements before `pos` are
unchanged, the elements after `pos` are shifted left by one in their original
relative order, the capacity is untouched, and the returned iterator is
`&data_[pos]` — the slot that now follows the removed element (`end()` when the
last element was removed). -/
theorem C8_erase (v : Vec α) (pos : ℕ) (h : pos < v.size) :
    ∃ w : Vec α, v.erase pos = some (w, pos) ∧
      w.elems = v.elems.take pos ++ v.elems.drop (pos + 1) ∧
      w.size = v.size - 1 ∧ w.cap = v.cap := by
  have h1 : pos + 1 ≤ v.size := h
  obtain ⟨a, ha⟩ : ∃ a, v.elems.drop (v.size - 1) = [a] := by
    apply List.length_eq_one.mp
    simp only [List.length_drop]
    simp only [Vec.size] at h ⊢
    omega
  simp only [Vec.erase, if_pos h1]
  rw [ha, Vec.popBack_concat]
  refine ⟨⟨_, v.cap⟩, rfl, rfl, ?_, rfl⟩
  simp only [Vec.size, List.length_append, List.length_take, List.length_drop] at h ⊢
  omega

/-- Instantiation of `C8_erase`: erasing the first element of `{1, 2, 3}`
(the spec's Scenario 2) yields `{2, 3}`. -/
theorem C8_erase_witness :
    Vec.erase (⟨[1, 2, 3], 3⟩ : Vec ℕ) 0 = some (⟨[2, 3], 3⟩, 0) := by
  obtain ⟨w, hw, he, hs, hc⟩ := C8_erase (⟨[1, 2, 3], 3⟩ : Vec ℕ) 0 (by decide)
  cases w with
  | mk e c =>
    simp only [Vec.elems] at he
    simp only [Vec.cap] at hc
    simp at he
    subst he
    subst hc
    exact hw

/-! ### C9: the size ≤ capacity invariant over all public operations -/

theorem Vec.reserve_size_le_cap (v : Vec α) (n : ℕ) (hv : v.size ≤ v.cap) :
    (v.reserve n).size ≤ (v.reserve n).cap := by
  unfold Vec.reserve
  split
  · exact hv
  · simp only [Vec.size] at *
    omega

theorem Vec.resize_size_le_cap [Inhabited α] (v : Vec α) (n : ℕ) (hv : v.size ≤ v.cap) :
    (v.resize n).size ≤ (v.resize n).cap := by
  unfold Vec.resize
  set r := if v.cap < n then v.reserve n else v with hr
  have h1 : r.size ≤ r.cap := by
    rw [hr]
    split
    · exact Vec.reserve_size_le_cap v n hv
    · exact hv
  have h2 : r.size < n → n ≤ r.cap := by
    intro hs
    rw [hr] at hs ⊢
    by_cases hc : v.cap < n
    · rw [if_pos hc] at hs ⊢
      unfold Vec.reserve at hs ⊢
      rw [if_neg (by omega)] at hs ⊢
    · rw [if_neg hc] at hs ⊢
      omega
  simp only [Vec.size] at h1 h2 ⊢
  split
  · next hs =>
      simp only [List.length_append, List.length_replicate]
      have := h2 hs
      omega
  · next hs =>
      simp only [List.length_take]
      omega

theorem Vec.pushBack_size_le_cap (v : Vec α) (x : α) (hv : v.size ≤ v.cap) :
    (v.pushBack x).size ≤ (v.pushBack x).cap := by
  unfold Vec.pushBack
  simp only [Vec.size] at hv ⊢
  split
  · next h =>
      simp only [List.length_append, List.length_cons, List.length_nil]
      omega
  · next h =>
      simp only [List.length_append, List.length_cons, List.length_nil]
      split <;> omega

theorem Vec.emplaceBack_size_le_cap (v : Vec α) (x : α) (hv : v.size ≤ v.cap) :
    (v.emplaceBack x).size ≤ (v.emplaceBack x).cap := by
  unfold Vec.emplaceBack
  simp only [Vec.size] at hv ⊢
  split
  · next h =>
      simp only [List.length_append, List.length_cons, List.length_nil]
      omega
  · next h =>
      simp only [List.length_append, List.length_cons, List.length_nil]
      split <;> omega

theorem Vec.popBack_size_le_cap (v : Vec α) (hv : v.size ≤ v.cap) :
    v.popBack.size ≤ v.popBack.cap := by
  unfold Vec.popBack
  split
  · simp only [Vec.size, List.length_dropLast] at *
    omega
  · exact hv

theorem Vec.emplace_size_le_cap (v : Vec α) (pos : ℕ) (x : α) (w : Vec α) (i : ℕ)
    (hv : v.size ≤ v.cap) (h : v.emplace pos x = some (w, i)) : w.size ≤ w.cap := by
  unfold Vec.emplace at h
  by_cases h1 : v.size < v.cap
  · rw [if_pos h1] at h
    by_cases h2 : 0 < v.size
    · rw [if_pos h2] at h
      by_cases h3 : pos + 1 ≤ v.size
      · rw [if_pos h3] at h
        injection h with h
        injection h with he hi
        subst he
        simp only [Vec.size, copyBackward, List.length_set, List.length_append,
          List.length_take, List.length_drop] at *
        omega
      · rw [if_neg h3] at h
        exact absurd h (by simp)
    · rw [if_neg h2] at h
      injection h with h
      injection h with he hi
      subst he
      simp only [Vec.size, List.length_cons, List.length_nil] at *
      omega
  · rw [if_neg h1] at h
    by_cases h4 : pos ≤ v.size
    · rw [if_pos h4] at h
      injection h with h
      injection h with he hi
      subst he
      simp only [Vec.size, List.length_append, List.length_take, List.length_cons,
        List.length_drop] at *
      split <;> omega
    · rw [if_neg h4] at h
      exact absurd h (by simp)

theorem Vec.erase_size_le_cap (v : Vec α) (pos : ℕ) (w : Vec α) (i : ℕ)
    (hv : v.size ≤ v.cap) (h : v.erase pos = some (w, i)) : w.size ≤ w.cap := by
  unfold Vec.erase at h
  by_cases h1 : pos + 1 ≤ v.size
  · rw [if_pos h1] at h
    injection h with h
    injection h with he hi
    subst he
    unfold Vec.popBack
    split
    · simp only [Vec.size, List.length_dropLast, List.length_append,
        List.length_take, List.length_drop] at *
      omega
    · simp only [Vec.size, List.length_append, List.length_take,
        List.length_drop] at *
      omega
  · rw [if_neg h1] at h
    exact absurd h (by simp)

theorem applyOp_size_le_cap [Inhabited α] (v w : Vec α) (op : Op α)
    (hv : v.size ≤ v.cap) (h : applyOp v op = some w) : w.size ≤ w.cap := by
  cases op with
  | reserve n =>
      simp only [applyOp, Option.some_inj] at h
      subst h
      exact Vec.reserve_size_le_cap v n hv
  | resize n =>
      simp only [applyOp, Option.some_inj] at h
      subst h
      exact Vec.resize_size_le_cap v n hv
  | pushBack x =>
      simp only [applyOp, Option.some_inj] at h
      subst h
      exact Vec.pushBack_size_le_cap v x hv
  | emplaceBack x =>
      simp only [applyOp, Option.some_inj] at h
      subst h
      exact Vec.emplaceBack_size_le_cap v x hv
  | popBack =>
      simp only [applyOp, Option.some_inj] at h
      subst h
      exact Vec.popBack_size_le_cap v hv
  | emplace pos x =>
      simp only [applyOp] at h
      rcases Option.map_eq_some'.mp h with ⟨⟨u, i⟩, hu, hw⟩
      subst hw
      exact Vec.emplace_size_le_cap v pos x u i hv hu
  | insert pos x =>
      simp only [applyOp, Vec.insert] at h
      rcases Option.map_eq_some'.mp h with ⟨⟨u, i⟩, hu, hw⟩
      subst hw
      exact Vec.emplace_size_le_cap v pos x u i hv hu
  | erase pos =>
      simp only [applyOp] at h
      rcases Option.map_eq_some'.mp h with ⟨⟨u, i⟩, hu, hw⟩
      subst hw
      exact Vec.erase_size_le_cap v pos u i hv hu

/-- C9: every reachable state satisfies `Size() ≤ Capacity()`: both
constructors establish the invariant, and every public operation that
completes preserves it, hence any operation sequence from a state satisfying
it ends in a state satisfying it. -/
theorem C9_size_le_capacity [Inhabited α] (v w : Vec α) (ops : List (Op α)) (n : ℕ) :
    (Vec.empty : Vec α).size ≤ (Vec.empty : Vec α).cap ∧
    (Vec.ofSize α n).size ≤ (Vec.ofSize α n).cap ∧
    (v.size ≤ v.cap → runOps v ops = some w → w.size ≤ w.cap) := by
  refine ⟨by simp [Vec.empty, Vec.size], by simp [Vec.ofSize, Vec.size], ?_⟩
  induction ops generalizing v with
  | nil =>
      intro hv h
      simp only [runOps, Option.some_inj] at h
      subst h
      exact hv
  | cons op ops ih =>
      intro hv h
      unfold runOps at h
      cases hop : applyOp v op with
      | none => rw [hop] at h; exact absurd h (by simp)
      | some u =>
          rw [hop] at h
          exact ih u (applyOp_size_le_cap v u op hv hop) h

/-- Instantiation of `C9_size_le_capacity` on a concrete operation sequence
(append, append, insert with growth, erase, pop). -/
theorem C9_size_le_capacity_witness :
    (Vec.mk [5] 4 : Vec ℕ).size ≤ (Vec.mk [5] 4 : Vec ℕ).cap :=
  (C9_size_le_capacity (Vec.empty : Vec ℕ) ⟨[5], 4⟩
      [Op.pushBack 1, Op.pushBack 2, Op.emplace 0 5, Op.erase 1, Op.popBack] 0).2.2
    (by decide) (by decide)

/-! ### C3: element-transfer failure during growth -/

/-- C3 fails on the code: with a full vector `{[7], cap 1}` and a copy
constructor that throws when copying `7`, `PushBack(5)` on the copy-transfer
growth path first copy-constructs `5` into `new_data + size_`, then
`std::uninitialized_copy_n` throws while copying `7`; the container is indeed
left in its old well-formed state (`data_`/`size_` untouched), but the element
already constructed at `new_data + size_` is never destroyed — exactly one
constructed object leaks, where the claim requires zero. -/
theorem C3_transfer_failure_leak :
    pushBackGrowViaCopy copyThrowsOn7 (⟨[7], 1⟩ : Vec ℕ) 5 = .error (⟨[7], 1⟩, 1) :=
  rfl

/-! ### C10: allocation failure leaves the vector unmodified -/

/-- C10: when the `RawMemory` allocation fails inside `Reserve`, a growing
`PushBack`/`EmplaceBack`, or a growing `Emplace`/`Insert`, the error propagates
and the vector the caller observes is exactly the original — the allocation is
the first step of each growth path, before any element or member is touched.
Moreover `Reserve` can only fail this way on a genuine growth request
(`Capacity() < k`) whose allocation was refused. -/
theorem C10_alloc_failure_unmodified (alloc : ℕ → Bool) (v w : Vec α)
    (k pos : ℕ) (x : α) :
    (Vec.reserveE alloc v k = .error w → w = v ∧ v.cap < k ∧ alloc k = false) ∧
    (Vec.pushBackE alloc v x = .error w → w = v) ∧
    (Vec.emplaceGrowE alloc v pos x = .error w → w = v) := by
  refine ⟨?_, ?_, ?_⟩ <;> intro h
  · unfold Vec.reserveE at h
    by_cases hk : k ≤ v.cap
    · rw [if_pos hk] at h
      exact absurd h (by simp)
    · rw [if_neg hk] at h
      by_cases ha : alloc k = true
      · rw [if_pos ha] at h
        exact absurd h (by simp)
      · rw [if_neg ha] at h
        injection h with h'
        exact ⟨h'.symm, by omega, by simpa using ha⟩
  · unfold Vec.pushBackE at h
    by_cases hk : v.size < v.cap
    · rw [if_pos hk] at h
      exact absurd h (by simp)
    · rw [if_neg hk] at h
      by_cases ha : alloc (if v.cap = 0 then 1 else v.cap * 2) = true
      · rw [if_pos ha] at h
        exact absurd h (by simp)
      · rw [if_neg ha] at h
        injection h with h'
        exact h'.symm
  · unfold Vec.emplaceGrowE at h
    by_cases ha : alloc (if v.cap = 0 then 1 else v.cap * 2) = true
    · rw [if_pos ha] at h
      exact absurd h (by simp)
    · rw [if_neg ha] at h
      injection h with h'
      exact h'.symm

/-- Instantiation of `C10_alloc_failure_unmodified` with an allocator that
always fails, on the full vector `{[1], cap 1}`. -/
theorem C10_alloc_failure_unmodified_witness :
    (⟨[1], 1⟩ : Vec ℕ) = ⟨[1], 1⟩ ∧ (⟨[1], 1⟩ : Vec ℕ).cap < 3 ∧
      (fun _ : ℕ => false) 3 = false :=
  (C10_alloc_failure_unmodified (fun _ => false) (⟨[1], 1⟩ : Vec ℕ) ⟨[1], 1⟩ 3 0 5).1
    (by rfl)

end CppVector
